import Mathlib

/-!
Verification of the coroutine scheduling core in `src/include/swoole_coroutine.h`
(namespace `swoole`, class `Coroutine`): the lifecycle and transfer state machine,
the process-wide identity registry, the stack-size policy and the bailout path.

The shallow embedding below translates the header's inline member functions into
Lean functions over an explicit `GlobalState` record holding the class's static
members (`coroutines`, `current`, `last_cid`, `peak_num`, `stack_size`,
`on_bailout`).  Pointers to `Coroutine` objects are represented by the objects'
ids (`cid`), with dereference going through the registry; the registry
`std::unordered_map<long, Coroutine *>` is an association list with unique keys.
The external collaborator `ExecutionContext` (`ctx.swap_in()` / `ctx.is_end()`)
is abstracted as a state-transformer parameter: a transfer hands the global
state to the coroutine's own execution and receives back the mutated state
together with the value `ctx.is_end()` observed when control returns.

Bodies that the header only declares (`close`, the static member initialisers,
the `SW_*` utility macros and `swFatalError`) are modelled from the spec, each
marked `Modelled from the spec:` in its doc comment.
-/

namespace Swoole

/-- Source: `constexpr static int STACK_ALIGNED_SIZE = (4 * 1024)` (header line 44). -/
def STACK_ALIGNED_SIZE : Nat := 4 * 1024

/-- Source: `constexpr static int MIN_STACK_SIZE = (64 * 1024)` (header line 45). -/
def MIN_STACK_SIZE : Nat := 64 * 1024

/-- Source: `constexpr static int MAX_STACK_SIZE = (16 * 1024 * 1024)` (header line 46). -/
def MAX_STACK_SIZE : Nat := 16 * 1024 * 1024

/-- Source: `constexpr static long MAX_NUM_LIMIT = LONG_MAX` (header line 47); `long` is
64-bit here, so `LONG_MAX = 2^63 - 1`. -/
def MAX_NUM_LIMIT : Int := 2 ^ 63 - 1

/-- Source: `enum State` (header lines 49-54). -/
inductive CoState where
  | STATE_INIT
  | STATE_WAITING
  | STATE_RUNNING
  | STATE_END
deriving DecidableEq, Repr

/-- Source: `enum Error { ERR_END = 0, ERR_LIMIT = -1, ERR_INVALID = -2 }`
(header lines 56-60). -/
inductive Error where
  | ERR_END
  | ERR_LIMIT
  | ERR_INVALID
deriving DecidableEq, Repr

/-- The integer value of each `enum Error` constant. -/
def Error.toInt : Error → Int
  | .ERR_END => 0
  | .ERR_LIMIT => -1
  | .ERR_INVALID => -2

/-- The per-object fields of `class Coroutine` (header lines 174-179): `state`,
`cid`, `init_msec`, `task`, `ctx`, `origin`.  The opaque `void *task` pointer is
an `Option Nat` (with `none` for `nullptr`); the non-owning `Coroutine *origin`
pointer is the origin's id (`none` for `nullptr`, i.e. host context); of the
owned `coroutine::Context ctx` only the completion flag observable through
`ctx.is_end()` is kept. -/
structure Coroutine where
  state : CoState
  cid : Int
  init_msec : Int
  task : Option Nat
  ctx_is_end : Bool
  origin : Option Int
deriving DecidableEq, Repr

/-- The static members of `class Coroutine` (header lines 165-172): the
registry `coroutines`, the `current` pointer (as an id), `last_cid`,
`peak_num`, `stack_size`, and whether a bailout callback is installed
(`on_bailout`, kept as a flag since only its nullness is branched on).  The
three swap hooks never influence the header's control flow and are omitted. -/
structure GlobalState where
  coroutines : List (Int × Coroutine)
  current : Option Int
  last_cid : Int
  peak_num : Nat
  stack_size : Nat
  on_bailout : Bool
deriving DecidableEq, Repr

/-- Source: `coroutines.find(cid)` on the association list modelling the
`std::unordered_map<long, Coroutine *>` registry. -/
def rfind (l : List (Int × Coroutine)) (k : Int) : Option Coroutine :=
  match l.find? (fun p => p.1 == k) with
  | some p => some p.2
  | none => none

/-- Source: `coroutines.erase(cid)`: remove the entry (all entries) with key `k`. -/
def rerase (l : List (Int × Coroutine)) (k : Int) : List (Int × Coroutine) :=
  l.filter (fun p => p.1 != k)

/-- Source: `coroutines[cid] = co`: insert or overwrite the entry with key `k`. -/
def rinsert (l : List (Int × Coroutine)) (k : Int) (co : Coroutine) :
    List (Int × Coroutine) :=
  (k, co) :: rerase l k

/-- Modelled from the spec: the static member initial values live in the
implementation file, not in the header; per the spec the registry starts
empty, ids start at 1 (so the last-assigned id starts at 0), there is no
current coroutine, the peak count starts at the live count 0, and no bailout
callback is installed.  The initial configured stack size is not
claim-relevant; 2 MiB (an aligned in-range value) stands in for it. -/
def initState : GlobalState :=
  { coroutines := []
    current := none
    last_cid := 0
    peak_num := 0
    stack_size := 2 * 1024 * 1024
    on_bailout := false }

/-- Modelled from the spec: `SW_MIN(a, b)`, the usual minimum macro (defined
outside `src/`). -/
def SW_MIN (a b : Nat) : Nat := if a < b then a else b

/-- Modelled from the spec: `SW_MAX(a, b)`, the usual maximum macro (defined
outside `src/`). -/
def SW_MAX (a b : Nat) : Nat := if a > b then a else b

/-- Modelled from the spec: `SW_MEM_ALIGNED_SIZE_EX(size, alignment)` (defined
outside `src/`) rounds `size` up to the next multiple of `alignment`
("rounded up to a fixed alignment unit"). -/
def SW_MEM_ALIGNED_SIZE_EX (size alignment : Nat) : Nat :=
  ((size + alignment - 1) / alignment) * alignment

/-- Source: `Coroutine::set_stack_size` (header lines 141-143):
`stack_size = SW_MEM_ALIGNED_SIZE_EX(SW_MAX(MIN_STACK_SIZE, SW_MIN(size, MAX_STACK_SIZE)), STACK_ALIGNED_SIZE)`. -/
def set_stack_size (s : GlobalState) (size : Nat) : GlobalState :=
  { s with
    stack_size :=
      SW_MEM_ALIGNED_SIZE_EX (SW_MAX MIN_STACK_SIZE (SW_MIN size MAX_STACK_SIZE))
        STACK_ALIGNED_SIZE }

/-- Source: `Coroutine::get_stack_size` (header lines 137-139). -/
def get_stack_size (s : GlobalState) : Nat := s.stack_size

/-- Source: `Coroutine::get_cid` (header lines 73-75). -/
def Coroutine.get_cid (co : Coroutine) : Int := co.cid

/-- Source: `Coroutine.get_task` (header lines 85-87). -/
def Coroutine.get_task (co : Coroutine) : Option Nat := co.task

/-- Source: `Coroutine.get_init_msec` (header lines 69-71). -/
def Coroutine.get_init_msec (co : Coroutine) : Int := co.init_msec

/-- Source: `Coroutine::get_origin_cid` (header lines 81-83):
`sw_likely(origin) ? origin->get_cid() : -1`.  The `origin` pointer is stored
as the origin's id, so the dereference `origin->get_cid()` yields that id. -/
def Coroutine.get_origin_cid (co : Coroutine) : Int :=
  match co.origin with
  | some o => o
  | none => -1

/-- Source: `Coroutine::get_current` (header lines 108-110), as the id held by the
`current` pointer (`none` for `nullptr`). -/
def get_current (s : GlobalState) : Option Int := s.current

/-- Source: `Coroutine::get_current_cid` (header lines 123-125):
`sw_likely(current) ? current->get_cid() : -1`. -/
def get_current_cid (s : GlobalState) : Int :=
  match s.current with
  | some c => c
  | none => -1

/-- Source: `Coroutine::get_current_task` (header lines 119-121):
`sw_likely(current) ? current->get_task() : nullptr`.  The pointer dereference
`current->get_task()` is modelled as a registry lookup (valid whenever the
current coroutine is registered, which every reachable state guarantees). -/
def get_current_task (s : GlobalState) : Option Nat :=
  match s.current with
  | some c =>
    match rfind s.coroutines c with
    | some co => co.get_task
    | none => none
  | none => none

/-- Source: `Coroutine::get_by_cid` (header lines 127-130): `coroutines.find(cid)`,
`nullptr` when absent. -/
def get_by_cid (s : GlobalState) (cid : Int) : Option Coroutine :=
  rfind s.coroutines cid

/-- Source: `Coroutine::get_task_by_cid` (header lines 132-135):
`co = get_by_cid(cid); return sw_likely(co) ? co->get_task() : nullptr`. -/
def get_task_by_cid (s : GlobalState) (cid : Int) : Option Nat :=
  match get_by_cid s cid with
  | some co => co.get_task
  | none => none

/-- Source: `Coroutine::get_last_cid` (header lines 145-147). -/
def get_last_cid (s : GlobalState) : Int := s.last_cid

/-- Source: `Coroutine::count` (header lines 149-151): `coroutines.size()`. -/
def count (s : GlobalState) : Nat := s.coroutines.length

/-- Source: `Coroutine::get_peak_num` (header lines 153-155). -/
def get_peak_num (s : GlobalState) : Nat := s.peak_num

/-- Source: `Coroutine::get_elapsed` (header lines 157-160):
`co = cid == 0 ? get_current() : get_by_cid(cid);`
`return sw_likely(co) ? Timer::get_absolute_msec() - co->get_init_msec() : -1`.
The external monotonic clock `Timer::get_absolute_msec()` is passed in as
`now`; the `get_current()` pointer dereference goes through the registry. -/
def get_elapsed (s : GlobalState) (now : Int) (cid : Int) : Int :=
  let co := if cid == 0 then
    match s.current with
    | some c => rfind s.coroutines c
    | none => none
  else get_by_cid s cid
  match co with
  | some c => now - c.get_init_msec
  | none => -1

/-- Source: `Coroutine::get_current_safe` (header lines 112-117): when `current` is
null, `swFatalError(SW_ERROR_CO_OUT_OF_COROUTINE, "API must be called in the
coroutine")` fires; otherwise `current` is returned.  Modelled from the spec:
`swFatalError` (defined outside `src/`) terminates the calling path; per the
spec's taxonomy this is the Usage error of the Invalid contract-violation
class, so the fatal outcome is `Except.error Error.ERR_INVALID`. -/
def get_current_safe (s : GlobalState) : Except Error Int :=
  match s.current with
  | none => .error .ERR_INVALID
  | some c => .ok c

/-- Modelled from the spec: `Coroutine::close` is only declared in the header
(line 209); per the spec the transferring party that observed completion
"destroy[s] and deregister[s]" the coroutine, so `close` erases the
coroutine's registry entry (deregistration; the object's destruction has no
further observable trace in the model) and hands the `current` pointer back to
the closed coroutine's origin, restoring the creator's/resumer's context. -/
def close (cid : Int) (s : GlobalState) : GlobalState :=
  match rfind s.coroutines cid with
  | some co =>
    { s with coroutines := rerase s.coroutines cid, current := co.origin }
  | none => { s with coroutines := rerase s.coroutines cid }

/-- The observable outcome of `Coroutine::check_end`: the coroutine was closed,
the bailout branch fired (`on_bailout(); exit(1)` — the process terminates), or
the call returned normally doing nothing. -/
inductive CheckEndResult where
  | closed
  | bailout
  | normal
deriving DecidableEq, Repr

/-- Source: `Coroutine::check_end` (header lines 198-207), run by the transferring
party when control returns to it: `if (ctx.is_end()) close(); else if
(sw_unlikely(on_bailout)) { SW_ASSERT(current == nullptr); on_bailout();
exit(1); }`.  `isEnd` is the value of `ctx.is_end()` observed on the
just-suspended coroutine `cid`. -/
def check_end (isEnd : Bool) (cid : Int) (s : GlobalState) :
    CheckEndResult × GlobalState :=
  if isEnd then (.closed, close cid s)
  else if s.on_bailout then (.bailout, s)
  else (.normal, s)

/-- The `Coroutine` constructor (header lines 181-187): `cid = ++last_cid;
coroutines[cid] = this; if (sw_unlikely(count() > peak_num)) peak_num =
count();`.  The member initialisers (lines 174-179) give `state = STATE_INIT`,
`init_msec = Timer::get_absolute_msec()` (passed in as `now`), the caller's
`task`/`private_data` pointer, and a not-yet-ended context. -/
def mkCoroutine (s : GlobalState) (task : Option Nat) (now : Int) :
    Coroutine × GlobalState :=
  let cid := s.last_cid + 1
  let co : Coroutine :=
    { state := .STATE_INIT
      cid := cid
      init_msec := now
      task := task
      ctx_is_end := false
      origin := none }
  let reg := rinsert s.coroutines cid co
  let peak := if reg.length > s.peak_num then reg.length else s.peak_num
  (co, { s with coroutines := reg, last_cid := cid, peak_num := peak })

/-- The state after the first two statements of `Coroutine::run` (header lines
191-192): `origin = current; current = this;` — the member write to `origin`
updates the object in the registry, and `current` now points at `co`. -/
def runPre (s : GlobalState) (co : Coroutine) : GlobalState :=
  { s with
    coroutines := rinsert s.coroutines co.cid { co with origin := s.current }
    current := some co.cid }

/-- The abstraction of `ctx.swap_in()`: handing this thread's execution to the
coroutine's private stack runs arbitrary code, so a transfer is a function
from the global state to the state when control returns paired with the value
`ctx.is_end()` then reports for the transferred-to coroutine. -/
def Transfer : Type := GlobalState → GlobalState × Bool

/-- Source: `Coroutine::run` (header lines 189-196): `long cid = this->cid; origin =
current; current = this; ctx.swap_in(); check_end(); return cid;` — the id is
saved into a local before the transfer, and is what is returned even if
`check_end` destroyed the object. -/
def run (s : GlobalState) (co : Coroutine) (transfer : Transfer) :
    Int × CheckEndResult × GlobalState :=
  let cid := co.cid
  let after := transfer (runPre s co)
  let checked := check_end after.2 cid after.1
  (cid, checked.1, checked.2)

/-- Source: `Coroutine::create` (header lines 104-106):
`return (new Coroutine(fn, args))->run();`. -/
def create (s : GlobalState) (task : Option Nat) (now : Int)
    (transfer : Transfer) : Int × CheckEndResult × GlobalState :=
  let made := mkCoroutine s task now
  run made.2 made.1 transfer

/-!
The atomic mutation steps of the interface.  Every operation of the header
(together with the spec-modelled `close`, `yield` and `resume`) decomposes
into these steps: `create` is `ctor` followed by `transferIn` of the new id
(the body of `Coroutine::run` before `ctx.swap_in()`), whatever steps the
coroutine's own code performs, and, when the transferring party's `check_end`
observes completion, `closeStep`; `resume` is `transferIn` of an existing id;
`yield` (modelled from the spec: Running becomes Waiting, `current` returns to
the origin) is `yieldStep`.  Trace invariants proved over all step sequences
therefore cover every execution of the interface, including interleavings the
contract forbids.
-/
inductive Op where
  | ctor (task : Option Nat) (now : Int)
  | transferIn (cid : Int)
  | yieldStep
  | closeStep (cid : Int)
  | setStack (n : Nat)
  | setBailout (b : Bool)
deriving DecidableEq, Repr

/-- The state change of one atomic step. -/
def step (s : GlobalState) : Op → GlobalState
  | .ctor task now => (mkCoroutine s task now).2
  | .transferIn cid =>
    match rfind s.coroutines cid with
    | some co => runPre s co
    | none => s
  | .yieldStep =>
    match s.current with
    | some c =>
      match rfind s.coroutines c with
      | some co =>
        { s with
          coroutines := rinsert s.coroutines c { co with state := .STATE_WAITING }
          current := co.origin }
      | none => s
    | none => s
  | .closeStep cid => close cid s
  | .setStack n => set_stack_size s n
  | .setBailout b => { s with on_bailout := b }

/-- Run a sequence of atomic steps. -/
def runOps (s : GlobalState) (ops : List Op) : GlobalState :=
  ops.foldl step s

/-- The ids assigned by the `Coroutine` constructor (`cid = ++last_cid`) along
a step sequence, in order of assignment. -/
def idsOf (s : GlobalState) : List Op → List Int
  | [] => []
  | op :: ops =>
    match op with
    | .ctor _ _ => (s.last_cid + 1) :: idsOf (step s op) ops
    | _ => idsOf (step s op) ops

/-- A key is present in the registry. -/
def MemKey (k : Int) (l : List (Int × Coroutine)) : Prop :=
  ∃ co, (k, co) ∈ l

/-- A concrete running coroutine used by spot checks. -/
def sampleCo : Coroutine :=
  { state := .STATE_RUNNING
    cid := 1
    init_msec := 10
    task := some 7
    ctx_is_end := false
    origin := none }

/-- A concrete state with `sampleCo` registered and current. -/
def sampleState : GlobalState :=
  { initState with current := some 1, coroutines := [(1, sampleCo)] }

/-- A placeholder coroutine used to populate large registries. -/
def dummyCo : Coroutine :=
  { state := .STATE_WAITING
    cid := 0
    init_msec := 0
    task := none
    ctx_is_end := false
    origin := none }

/-- A registry of `n` placeholder coroutines with distinct keys
`1000, 1001, ...` (built by direct recursion so its head is reachable
without materialising the whole list). -/
def mkReg : Nat → List (Int × Coroutine)
  | 0 => []
  | n + 1 => ((n : Int) + 1000, dummyCo) :: mkReg n

/-- A registry holding `LONG_MAX` live coroutines. -/
def bigReg : List (Int × Coroutine) := mkReg (2 ^ 63 - 1)

/-- A state whose live count is exactly `MAX_NUM_LIMIT`. -/
def bigState : GlobalState :=
  { initState with coroutines := bigReg, last_cid := 1 }

/-- A transfer in which the coroutine suspends without ending. -/
def idleTransfer : Transfer := fun st => (st, false)

/-- A transfer in which the coroutine runs to completion before first
yielding. -/
def endingTransfer : Transfer := fun st => (st, true)

/-!
Association-list lemmas for the registry.
-/

theorem mkReg_length (n : Nat) : (mkReg n).length = n := by
  induction n with
  | zero => rfl
  | succ n ih => simp [mkReg, ih]

theorem rfind_eq_map_find (l : List (Int × Coroutine)) (k : Int) :
    rfind l k = (l.find? (fun p => p.1 == k)).map (·.2) := by
  unfold rfind
  cases l.find? (fun p => p.1 == k) <;> rfl

theorem rfind_eq_none_iff (l : List (Int × Coroutine)) (k : Int) :
    rfind l k = none ↔ ∀ co, (k, co) ∉ l := by
  rw [rfind_eq_map_find, Option.map_eq_none', List.find?_eq_none]
  constructor
  · intro h co hmem
    have := h (k, co) hmem
    simp at this
  · intro h p hp hbeq
    have hk : p.1 = k := by simpa using hbeq
    exact h p.2 (by simpa [← hk] using hp)

theorem rfind_mem (l : List (Int × Coroutine)) (k : Int) (co : Coroutine)
    (h : rfind l k = some co) : (k, co) ∈ l := by
  rw [rfind_eq_map_find] at h
  rcases Option.map_eq_some.mp h with ⟨p, hp, hco⟩
  have hmem := List.mem_of_find?_eq_some hp
  have hpred := List.find?_some hp
  have hk : p.1 = k := by simpa using hpred
  have : p = (k, co) := by
    cases p
    simp_all
  rwa [this] at hmem

theorem rfind_rinsert_self (l : List (Int × Coroutine)) (k : Int)
    (co : Coroutine) : rfind (rinsert l k co) k = some co := by
  unfold rfind rinsert
  rw [List.find?_cons_of_pos _ (by simp)]

theorem rfind_rerase_self (l : List (Int × Coroutine)) (k : Int) :
    rfind (rerase l k) k = none := by
  rw [rfind_eq_none_iff]
  intro co hmem
  have := List.of_mem_filter hmem
  simp at this

theorem mem_of_mem_rerase {l : List (Int × Coroutine)} {k : Int}
    {p : Int × Coroutine} (h : p ∈ rerase l k) : p ∈ l :=
  List.mem_of_mem_filter h

theorem mem_rinsert {l : List (Int × Coroutine)} {k : Int} {co : Coroutine}
    {p : Int × Coroutine} (h : p ∈ rinsert l k co) :
    p = (k, co) ∨ p ∈ l := by
  rcases List.mem_cons.mp h with h | h
  · exact Or.inl h
  · exact Or.inr (mem_of_mem_rerase h)

theorem rerase_length_lt {l : List (Int × Coroutine)} {k : Int}
    (h : MemKey k l) : (rerase l k).length < l.length := by
  rcases h with ⟨co, hmem⟩
  unfold rerase
  induction l with
  | nil => cases hmem
  | cons p t ih =>
    rcases List.mem_cons.mp hmem with h | h
    · subst h
      simp only [List.filter_cons]
      have : ((k, co).1 != k) = false := by simp
      rw [this]
      exact Nat.lt_succ_of_le (List.length_filter_le _ _)
    · by_cases hp : (p.1 != k) = true
      · simp only [List.filter_cons, hp]
        simpa using ih h
      · simp only [List.filter_cons, Bool.not_eq_true] at hp ⊢
        rw [hp]
        exact Nat.lt_succ_of_le (List.length_filter_le _ _)

theorem rerase_length_le (l : List (Int × Coroutine)) (k : Int) :
    (rerase l k).length ≤ l.length :=
  List.length_filter_le _ _

/-- C2 helper: `close` deregisters its argument. -/
theorem rfind_close_self (cid : Int) (s : GlobalState) :
    rfind (close cid s).coroutines cid = none := by
  unfold close
  split <;> exact rfind_rerase_self s.coroutines cid

/-!
Step-machine lemmas: the id counter only moves forward, keys stay coherent
with their objects' `cid` fields and bounded by `last_cid`, and the peak
counter dominates the live count.
-/

theorem close_coroutines (cid : Int) (s : GlobalState) :
    (close cid s).coroutines = rerase s.coroutines cid := by
  unfold close
  split <;> rfl

theorem close_last_cid (cid : Int) (s : GlobalState) :
    (close cid s).last_cid = s.last_cid := by
  unfold close
  split <;> rfl

theorem close_peak_num (cid : Int) (s : GlobalState) :
    (close cid s).peak_num = s.peak_num := by
  unfold close
  split <;> rfl

theorem step_ctor_eq (s : GlobalState) (task : Option Nat) (now : Int) :
    step s (.ctor task now) = (mkCoroutine s task now).2 := rfl

theorem step_closeStep_eq (s : GlobalState) (cid : Int) :
    step s (.closeStep cid) = close cid s := rfl

theorem step_setStack_eq (s : GlobalState) (n : Nat) :
    step s (.setStack n) = set_stack_size s n := rfl

theorem step_setBailout_eq (s : GlobalState) (b : Bool) :
    step s (.setBailout b) = { s with on_bailout := b } := rfl

theorem step_transferIn_none (s : GlobalState) (cid : Int)
    (hf : rfind s.coroutines cid = none) : step s (.transferIn cid) = s := by
  simp [step, hf]

theorem step_transferIn_some (s : GlobalState) (cid : Int) (co : Coroutine)
    (hf : rfind s.coroutines cid = some co) :
    step s (.transferIn cid) = runPre s co := by
  simp [step, hf]

theorem step_yield_host (s : GlobalState) (hc : s.current = none) :
    step s .yieldStep = s := by
  simp [step, hc]

theorem step_yield_dangling (s : GlobalState) (c : Int)
    (hc : s.current = some c) (hf : rfind s.coroutines c = none) :
    step s .yieldStep = s := by
  simp [step, hc, hf]

theorem step_yield_some (s : GlobalState) (c : Int) (co : Coroutine)
    (hc : s.current = some c) (hf : rfind s.coroutines c = some co) :
    step s .yieldStep
      = { s with
          coroutines := rinsert s.coroutines c { co with state := .STATE_WAITING }
          current := co.origin } := by
  simp [step, hc, hf]

theorem step_last_cid_ctor (s : GlobalState) (task : Option Nat) (now : Int) :
    (step s (.ctor task now)).last_cid = s.last_cid + 1 := rfl

theorem step_last_cid_of_ne_ctor (s : GlobalState) (op : Op)
    (h : ∀ task now, op ≠ Op.ctor task now) :
    (step s op).last_cid = s.last_cid := by
  cases op with
  | ctor task now => exact absurd rfl (h task now)
  | transferIn cid =>
    cases hf : rfind s.coroutines cid with
    | none => rw [step_transferIn_none s cid hf]
    | some co => rw [step_transferIn_some s cid co hf]; rfl
  | yieldStep =>
    cases hc : s.current with
    | none => rw [step_yield_host s hc]
    | some c =>
      cases hf : rfind s.coroutines c with
      | none => rw [step_yield_dangling s c hc hf]
      | some co => rw [step_yield_some s c co hc hf]
  | closeStep cid => rw [step_closeStep_eq, close_last_cid]
  | setStack n => rfl
  | setBailout b => rfl

theorem step_last_cid_le (s : GlobalState) (op : Op) :
    s.last_cid ≤ (step s op).last_cid := by
  cases op with
  | ctor task now =>
    rw [step_last_cid_ctor]
    omega
  | transferIn cid => exact (step_last_cid_of_ne_ctor s _ (by intro t n h; cases h)).ge
  | yieldStep => exact (step_last_cid_of_ne_ctor s _ (by intro t n h; cases h)).ge
  | closeStep cid => exact (step_last_cid_of_ne_ctor s _ (by intro t n h; cases h)).ge
  | setStack n => exact (step_last_cid_of_ne_ctor s _ (by intro t n h; cases h)).ge
  | setBailout b => exact (step_last_cid_of_ne_ctor s _ (by intro t n h; cases h)).ge

theorem runOps_last_cid_le (ops : List Op) :
    ∀ s : GlobalState, s.last_cid ≤ (runOps s ops).last_cid := by
  induction ops with
  | nil => intro s; exact le_refl _
  | cons op ops ih =>
    intro s
    exact le_trans (step_last_cid_le s op) (ih (step s op))

/-- The registry invariant: the id counter is non-negative, every key lies in
`[1, last_cid]`, and every entry's key equals its object's `cid` field. -/
def Inv (s : GlobalState) : Prop :=
  0 ≤ s.last_cid ∧ ∀ p ∈ s.coroutines, 1 ≤ p.1 ∧ p.1 ≤ s.last_cid ∧ p.2.cid = p.1

theorem inv_initState : Inv initState := by
  refine ⟨le_refl 0, ?_⟩
  intro p hp
  simp [initState] at hp

theorem inv_step (s : GlobalState) (op : Op) (h : Inv s) : Inv (step s op) := by
  obtain ⟨h0, hk⟩ := h
  cases op with
  | ctor task now =>
    refine ⟨?_, ?_⟩
    · rw [step_last_cid_ctor]; omega
    · intro p hp
      rw [step_last_cid_ctor]
      have hp2 : p ∈ rinsert s.coroutines (s.last_cid + 1)
          (mkCoroutine s task now).1 := hp
      rcases mem_rinsert hp2 with h | h
      · subst h
        exact ⟨by omega, le_refl _, rfl⟩
      · have := hk p h
        exact ⟨this.1, by omega, this.2.2⟩
  | transferIn cid =>
    cases hf : rfind s.coroutines cid with
    | none =>
      rw [step_transferIn_none s cid hf]
      exact ⟨h0, hk⟩
    | some co =>
      rw [step_transferIn_some s cid co hf]
      have hmem := rfind_mem _ _ _ hf
      have hco := hk _ hmem
      refine ⟨h0, ?_⟩
      intro p hp
      have hp2 : p ∈ rinsert s.coroutines co.cid { co with origin := s.current } := hp
      rcases mem_rinsert hp2 with h | h
      · subst h
        refine ⟨?_, ?_, rfl⟩ <;> rw [hco.2.2]
        · exact hco.1
        · exact hco.2.1
      · exact hk p h
  | yieldStep =>
    cases hc : s.current with
    | none =>
      rw [step_yield_host s hc]
      exact ⟨h0, hk⟩
    | some c =>
      cases hf : rfind s.coroutines c with
      | none =>
        rw [step_yield_dangling s c hc hf]
        exact ⟨h0, hk⟩
      | some co =>
        rw [step_yield_some s c co hc hf]
        have hmem := rfind_mem _ _ _ hf
        have hco := hk _ hmem
        refine ⟨h0, ?_⟩
        intro p hp
        have hp2 : p ∈ rinsert s.coroutines c { co with state := .STATE_WAITING } := hp
        rcases mem_rinsert hp2 with h | h
        · subst h
          exact ⟨hco.1, hco.2.1, hco.2.2⟩
        · exact hk p h
  | closeStep cid =>
    rw [step_closeStep_eq]
    refine ⟨by rw [close_last_cid]; exact h0, ?_⟩
    intro p hp
    rw [close_coroutines] at hp
    rw [close_last_cid]
    exact hk p (mem_of_mem_rerase hp)
  | setStack n => exact ⟨h0, hk⟩
  | setBailout b => exact ⟨h0, hk⟩

theorem inv_runOps (ops : List Op) :
    ∀ s : GlobalState, Inv s → Inv (runOps s ops) := by
  induction ops with
  | nil => intro s h; exact h
  | cons op ops ih =>
    intro s h
    exact ih (step s op) (inv_step s op h)

/-- Any key present after a step was either already present or is the freshly
assigned id `last_cid + 1`. -/
theorem step_mem_key (s : GlobalState) (op : Op) (h : Inv s) (cid : Int)
    (co : Coroutine) (hmem : (cid, co) ∈ (step s op).coroutines) :
    MemKey cid s.coroutines ∨ cid = s.last_cid + 1 := by
  obtain ⟨h0, hk⟩ := h
  cases op with
  | ctor task now =>
    rcases mem_rinsert hmem with h | h
    · exact Or.inr (congrArg Prod.fst h)
    · exact Or.inl ⟨co, h⟩
  | transferIn c =>
    cases hf : rfind s.coroutines c with
    | none =>
      rw [step_transferIn_none s c hf] at hmem
      exact Or.inl ⟨co, hmem⟩
    | some co0 =>
      rw [step_transferIn_some s c co0 hf] at hmem
      rcases mem_rinsert hmem with h | h
      · have hcid : cid = co0.cid := congrArg Prod.fst h
        have := hk _ (rfind_mem _ _ _ hf)
        rw [this.2.2] at hcid
        exact Or.inl ⟨co0, by rw [hcid]; exact rfind_mem _ _ _ hf⟩
      · exact Or.inl ⟨co, h⟩
  | yieldStep =>
    cases hc : s.current with
    | none =>
      rw [step_yield_host s hc] at hmem
      exact Or.inl ⟨co, hmem⟩
    | some c =>
      cases hf : rfind s.coroutines c with
      | none =>
        rw [step_yield_dangling s c hc hf] at hmem
        exact Or.inl ⟨co, hmem⟩
      | some co0 =>
        rw [step_yield_some s c co0 hc hf] at hmem
        rcases mem_rinsert hmem with h | h
        · have hcid : cid = c := congrArg Prod.fst h
          exact Or.inl ⟨co0, by rw [hcid]; exact rfind_mem _ _ _ hf⟩
        · exact Or.inl ⟨co, h⟩
  | closeStep c =>
    rw [step_closeStep_eq, close_coroutines] at hmem
    exact Or.inl ⟨co, mem_of_mem_rerase hmem⟩
  | setStack n => exact Or.inl ⟨co, hmem⟩
  | setBailout b => exact Or.inl ⟨co, hmem⟩

/-- Once an id at or below the counter is absent from the registry, it stays
absent forever: future constructors only use strictly larger fresh ids. -/
theorem not_found_stays (cid : Int) (ops : List Op) :
    ∀ s : GlobalState, Inv s → cid ≤ s.last_cid →
      rfind s.coroutines cid = none →
      rfind (runOps s ops).coroutines cid = none := by
  induction ops with
  | nil => intro s _ _ h; exact h
  | cons op ops ih =>
    intro s hinv hle hnone
    refine ih (step s op) (inv_step s op hinv)
      (le_trans hle (step_last_cid_le s op)) ?_
    rw [rfind_eq_none_iff]
    intro co hmem
    rcases step_mem_key s op hinv cid co hmem with h | h
    · obtain ⟨co2, hco2⟩ := h
      exact (rfind_eq_none_iff _ _).mp hnone co2 hco2
    · omega

theorem mkCoroutine_peak_num (s : GlobalState) (task : Option Nat) (now : Int) :
    (mkCoroutine s task now).2.peak_num
      = max s.peak_num (count (mkCoroutine s task now).2) := by
  unfold mkCoroutine count
  dsimp only
  split <;> omega

theorem step_peak_le (s : GlobalState) (op : Op) :
    s.peak_num ≤ (step s op).peak_num := by
  cases op with
  | ctor task now =>
    rw [step_ctor_eq, mkCoroutine_peak_num]
    exact le_max_left _ _
  | transferIn cid =>
    cases hf : rfind s.coroutines cid with
    | none => rw [step_transferIn_none s cid hf]
    | some co => rw [step_transferIn_some s cid co hf]; exact le_refl _
  | yieldStep =>
    cases hc : s.current with
    | none => rw [step_yield_host s hc]
    | some c =>
      cases hf : rfind s.coroutines c with
      | none => rw [step_yield_dangling s c hc hf]
      | some co => rw [step_yield_some s c co hc hf]
  | closeStep cid =>
    rw [step_closeStep_eq, close_peak_num]
  | setStack n => exact le_refl _
  | setBailout b => exact le_refl _

theorem step_count_le_peak (s : GlobalState) (op : Op) (hinv : Inv s)
    (h : count s ≤ s.peak_num) : count (step s op) ≤ (step s op).peak_num := by
  cases op with
  | ctor task now =>
    rw [step_ctor_eq, mkCoroutine_peak_num]
    exact le_max_right _ _
  | transferIn cid =>
    cases hf : rfind s.coroutines cid with
    | none => rw [step_transferIn_none s cid hf]; exact h
    | some co =>
      rw [step_transferIn_some s cid co hf]
      have hcid : co.cid = cid := (hinv.2 _ (rfind_mem _ _ _ hf)).2.2
      have hlt : (rerase s.coroutines co.cid).length < s.coroutines.length := by
        rw [hcid]
        exact rerase_length_lt ⟨co, rfind_mem _ _ _ hf⟩
      show (rinsert s.coroutines co.cid _).length ≤ s.peak_num
      unfold rinsert
      simp only [List.length_cons]
      unfold count at h
      omega
  | yieldStep =>
    cases hc : s.current with
    | none => rw [step_yield_host s hc]; exact h
    | some c =>
      cases hf : rfind s.coroutines c with
      | none => rw [step_yield_dangling s c hc hf]; exact h
      | some co =>
        rw [step_yield_some s c co hc hf]
        have hlt : (rerase s.coroutines c).length < s.coroutines.length :=
          rerase_length_lt ⟨co, rfind_mem _ _ _ hf⟩
        show (rinsert s.coroutines c _).length ≤ s.peak_num
        unfold rinsert
        simp only [List.length_cons]
        unfold count at h
        omega
  | closeStep cid =>
    rw [step_closeStep_eq]
    unfold count
    rw [close_coroutines, close_peak_num]
    exact le_trans (rerase_length_le _ _) h
  | setStack n => exact h
  | setBailout b => exact h

theorem runOps_peak_le (ops : List Op) :
    ∀ s : GlobalState, s.peak_num ≤ (runOps s ops).peak_num := by
  induction ops with
  | nil => intro s; exact le_refl _
  | cons op ops ih =>
    intro s
    exact le_trans (step_peak_le s op) (ih (step s op))

theorem runOps_count_le_peak (ops : List Op) :
    ∀ s : GlobalState, Inv s → count s ≤ s.peak_num →
      count (runOps s ops) ≤ (runOps s ops).peak_num := by
  induction ops with
  | nil => intro s _ h; exact h
  | cons op ops ih =>
    intro s hinv h
    exact ih (step s op) (inv_step s op hinv) (step_count_le_peak s op hinv h)

theorem runOps_append (s : GlobalState) (ops more : List Op) :
    runOps s (ops ++ more) = runOps (runOps s ops) more :=
  List.foldl_append _ _ _ _

theorem idsOf_ctor_cons (s : GlobalState) (task : Option Nat) (now : Int)
    (ops : List Op) :
    idsOf s (.ctor task now :: ops)
      = (s.last_cid + 1) :: idsOf (step s (.ctor task now)) ops := rfl

theorem idsOf_cons_of_ne_ctor (s : GlobalState) (op : Op) (ops : List Op)
    (h : ∀ task now, op ≠ Op.ctor task now) :
    idsOf s (op :: ops) = idsOf (step s op) ops := by
  cases op with
  | ctor task now => exact absurd rfl (h task now)
  | transferIn cid => rfl
  | yieldStep => rfl
  | closeStep cid => rfl
  | setStack n => rfl
  | setBailout b => rfl

theorem idsOf_gt (ops : List Op) :
    ∀ (s : GlobalState) (i : Int), i ∈ idsOf s ops → s.last_cid < i := by
  induction ops with
  | nil =>
    intro s i h
    simp [idsOf] at h
  | cons op ops ih =>
    intro s i h
    cases op with
    | ctor task now =>
      rw [idsOf_ctor_cons] at h
      rcases List.mem_cons.mp h with h | h
      · omega
      · have := ih (step s (.ctor task now)) i h
        rw [step_last_cid_ctor] at this
        omega
    | transferIn cid =>
      rw [idsOf_cons_of_ne_ctor s _ ops (by intro t n hh; cases hh)] at h
      have := ih _ i h
      rw [step_last_cid_of_ne_ctor s _ (by intro t n hh; cases hh)] at this
      exact this
    | yieldStep =>
      rw [idsOf_cons_of_ne_ctor s _ ops (by intro t n hh; cases hh)] at h
      have := ih _ i h
      rw [step_last_cid_of_ne_ctor s _ (by intro t n hh; cases hh)] at this
      exact this
    | closeStep cid =>
      rw [idsOf_cons_of_ne_ctor s _ ops (by intro t n hh; cases hh)] at h
      have := ih _ i h
      rw [step_last_cid_of_ne_ctor s _ (by intro t n hh; cases hh)] at this
      exact this
    | setStack n =>
      rw [idsOf_cons_of_ne_ctor s _ ops (by intro t n hh; cases hh)] at h
      have := ih _ i h
      rw [step_last_cid_of_ne_ctor s _ (by intro t n hh; cases hh)] at this
      exact this
    | setBailout b =>
      rw [idsOf_cons_of_ne_ctor s _ ops (by intro t n hh; cases hh)] at h
      have := ih _ i h
      rw [step_last_cid_of_ne_ctor s _ (by intro t n hh; cases hh)] at this
      exact this

theorem idsOf_chain (ops : List Op) :
    ∀ s : GlobalState, List.Chain' (· < ·) (idsOf s ops) := by
  induction ops with
  | nil => intro s; simp [idsOf]
  | cons op ops ih =>
    intro s
    cases op with
    | ctor task now =>
      rw [idsOf_ctor_cons]
      rw [List.chain'_cons']
      refine ⟨?_, ih _⟩
      intro y hy
      have hmem : y ∈ idsOf (step s (.ctor task now)) ops :=
        List.mem_of_mem_head? hy
      have := idsOf_gt ops _ y hmem
      rw [step_last_cid_ctor] at this
      omega
    | transferIn cid =>
      rw [idsOf_cons_of_ne_ctor s _ ops (by intro t n hh; cases hh)]
      exact ih _
    | yieldStep =>
      rw [idsOf_cons_of_ne_ctor s _ ops (by intro t n hh; cases hh)]
      exact ih _
    | closeStep cid =>
      rw [idsOf_cons_of_ne_ctor s _ ops (by intro t n hh; cases hh)]
      exact ih _
    | setStack n =>
      rw [idsOf_cons_of_ne_ctor s _ ops (by intro t n hh; cases hh)]
      exact ih _
    | setBailout b =>
      rw [idsOf_cons_of_ne_ctor s _ ops (by intro t n hh; cases hh)]
      exact ih _

theorem idsOf_head (ops : List Op) :
    ∀ (s : GlobalState) (x : Int), (idsOf s ops).head? = some x →
      x = s.last_cid + 1 := by
  induction ops with
  | nil =>
    intro s x h
    simp [idsOf] at h
  | cons op ops ih =>
    intro s x h
    cases op with
    | ctor task now =>
      rw [idsOf_ctor_cons] at h
      simp at h
      omega
    | transferIn cid =>
      rw [idsOf_cons_of_ne_ctor s _ ops (by intro t n hh; cases hh)] at h
      rw [← step_last_cid_of_ne_ctor s (Op.transferIn cid) (by intro t n hh; cases hh)]
      exact ih _ x h
    | yieldStep =>
      rw [idsOf_cons_of_ne_ctor s _ ops (by intro t n hh; cases hh)] at h
      rw [← step_last_cid_of_ne_ctor s Op.yieldStep (by intro t n hh; cases hh)]
      exact ih _ x h
    | closeStep cid =>
      rw [idsOf_cons_of_ne_ctor s _ ops (by intro t n hh; cases hh)] at h
      rw [← step_last_cid_of_ne_ctor s (Op.closeStep cid) (by intro t n hh; cases hh)]
      exact ih _ x h
    | setStack n =>
      rw [idsOf_cons_of_ne_ctor s _ ops (by intro t n hh; cases hh)] at h
      rw [← step_last_cid_of_ne_ctor s (Op.setStack n) (by intro t n hh; cases hh)]
      exact ih _ x h
    | setBailout b =>
      rw [idsOf_cons_of_ne_ctor s _ ops (by intro t n hh; cases hh)] at h
      rw [← step_last_cid_of_ne_ctor s (Op.setBailout b) (by intro t n hh; cases hh)]
      exact ih _ x h

/-!
Theorems.
-/

/-- C1: `set_stack_size(x)` sets the process-wide stack size to the clamp of
`x` into `[MIN_STACK_SIZE, MAX_STACK_SIZE]` rounded up to a multiple of
`STACK_ALIGNED_SIZE`: the result is always aligned; below-minimum requests
yield the (aligned) minimum, above-maximum requests yield the (aligned)
maximum, and in-range requests round up to the alignment unit (the least
aligned value ≥ `x`); out-of-range requests are clamped, never rejected. -/
theorem set_stack_size_clamps_and_aligns (s : GlobalState) (x : Nat) :
    (set_stack_size s x).stack_size % STACK_ALIGNED_SIZE = 0
    ∧ (x < MIN_STACK_SIZE → (set_stack_size s x).stack_size = MIN_STACK_SIZE)
    ∧ (x > MAX_STACK_SIZE → (set_stack_size s x).stack_size = MAX_STACK_SIZE)
    ∧ (MIN_STACK_SIZE ≤ x → x ≤ MAX_STACK_SIZE →
        x ≤ (set_stack_size s x).stack_size
        ∧ (set_stack_size s x).stack_size < x + STACK_ALIGNED_SIZE) := by
  simp only [set_stack_size, SW_MEM_ALIGNED_SIZE_EX, SW_MAX, SW_MIN,
    STACK_ALIGNED_SIZE, MIN_STACK_SIZE, MAX_STACK_SIZE]
  split_ifs <;> omega

/-- C1 witness: a below-minimum request yields the minimum, and an unaligned
in-range request is not shrunk. -/
theorem set_stack_size_clamps_and_aligns_spot_check :
    (set_stack_size initState 100).stack_size = MIN_STACK_SIZE
    ∧ 70000 ≤ (set_stack_size initState 70000).stack_size := by
  constructor
  · exact (set_stack_size_clamps_and_aligns initState 100).2.1 (by decide)
  · exact ((set_stack_size_clamps_and_aligns initState 70000).2.2.2 (by decide)
      (by decide)).1

/-- C2: immediately after a transfer returns to the transferring party,
`check_end` either — when the just-suspended coroutine's context reports
completion — destroys and deregisters that coroutine, or — when a bailout
callback is installed and no coroutine is current — takes the bailout branch
that invokes the callback and terminates the process (`exit(1)`), never
returning normally. -/
theorem check_end_destroys_or_bails_out (s : GlobalState) (cid : Int)
    (isEnd : Bool) :
    (isEnd = true →
      (check_end isEnd cid s).1 = CheckEndResult.closed
      ∧ rfind (check_end isEnd cid s).2.coroutines cid = none)
    ∧ (isEnd = false → s.on_bailout = true → s.current = none →
      (check_end isEnd cid s).1 = CheckEndResult.bailout
      ∧ (check_end isEnd cid s).1 ≠ CheckEndResult.normal) := by
  constructor
  · rintro rfl
    constructor
    · simp [check_end]
    · show rfind (close cid s).coroutines cid = none
      exact rfind_close_self cid s
  · rintro rfl hb _
    simp [check_end, hb]

/-- C2 witness: a finished coroutine is deregistered by the end-check, and
with a bailout callback installed and no coroutine current the end-check of a
non-finished transfer takes the bailout branch. -/
theorem check_end_destroys_or_bails_out_spot_check :
    (check_end true 1 sampleState).1 = CheckEndResult.closed
    ∧ (check_end false 1 { initState with on_bailout := true }).1
        = CheckEndResult.bailout :=
  ⟨((check_end_destroys_or_bails_out sampleState 1 true).1 rfl).1,
   ((check_end_destroys_or_bails_out { initState with on_bailout := true } 1
      false).2 rfl rfl rfl).1⟩

/-- C3: over every operation sequence from the initial state, the ids the
constructor assigns start at 1, are strictly increasing across successive
creations, are positive, and are never reused (pairwise distinct) — even
after coroutines with earlier ids have ended and been deregistered. -/
theorem ids_start_at_one_strictly_increase_never_reused (ops : List Op) :
    List.Chain' (· < ·) (idsOf initState ops)
    ∧ (∀ i ∈ idsOf initState ops, 1 ≤ i)
    ∧ List.Pairwise (· ≠ ·) (idsOf initState ops)
    ∧ (∀ x, (idsOf initState ops).head? = some x → x = 1) := by
  have hchain := idsOf_chain ops initState
  have h0 : initState.last_cid = 0 := rfl
  refine ⟨hchain, ?_, ?_, ?_⟩
  · intro i hi
    have := idsOf_gt ops initState i hi
    omega
  · have hpw : List.Pairwise (· < ·) (idsOf initState ops) :=
      List.chain'_iff_pairwise.mp hchain
    exact hpw.imp (fun h => ne_of_lt h)
  · intro x hx
    have := idsOf_head ops initState x hx
    omega

/-- C3 witness: concrete traces — the first assigned id is 1 and stays
positive, and after a close the next creation gets the fresh id 2, not the
reclaimed id. -/
theorem ids_start_at_one_strictly_increase_never_reused_spot_check :
    (1 : Int) ≤ 1 ∧ (1 : Int) ≤ 2 ∧ (1 : Int) = 1 :=
  ⟨(ids_start_at_one_strictly_increase_never_reused [.ctor none 0]).2.1 1
      (by decide),
   (ids_start_at_one_strictly_increase_never_reused
      [.ctor none 0, .closeStep 1, .ctor none 5]).2.1 2 (by decide),
   (ids_start_at_one_strictly_increase_never_reused [.ctor none 0]).2.2.2 1
      (by decide)⟩

/-- C4: create allocates a coroutine carrying the next id `last_cid + 1`,
registers it under that id, sets the peak count to the live count exactly
when exceeded, performs the first transfer, and returns the new id for every
transfer outcome — in particular when the coroutine ran to completion during
that first transfer and was destroyed and deregistered by the end-check. -/
theorem create_registers_and_returns_new_id (s : GlobalState)
    (task : Option Nat) (now : Int) (transfer : Transfer) :
    (create s task now transfer).1 = s.last_cid + 1
    ∧ (mkCoroutine s task now).1.cid = s.last_cid + 1
    ∧ rfind (mkCoroutine s task now).2.coroutines (s.last_cid + 1)
        = some (mkCoroutine s task now).1
    ∧ (mkCoroutine s task now).2.peak_num
        = max s.peak_num (count (mkCoroutine s task now).2)
    ∧ (create s task now endingTransfer).1 = s.last_cid + 1
    ∧ rfind (create s task now endingTransfer).2.2.coroutines (s.last_cid + 1)
        = none := by
  refine ⟨rfl, rfl, ?_, mkCoroutine_peak_num s task now, rfl, ?_⟩
  · exact rfind_rinsert_self s.coroutines (s.last_cid + 1)
      (mkCoroutine s task now).1
  · exact rfind_close_self (s.last_cid + 1)
      (runPre (mkCoroutine s task now).2 (mkCoroutine s task now).1)

/-- C5: run records the previously current coroutine (none for host context)
as the new coroutine's origin, sets the current pointer to the new coroutine,
only then invokes the context transfer-in (the transfer sees exactly the
state `runPre` built), performs the end-check on the state the transfer
returns, and returns the id captured before the transfer. -/
theorem run_origin_current_transfer_order (s : GlobalState) (co : Coroutine)
    (transfer : Transfer) :
    (runPre s co).current = some co.cid
    ∧ rfind (runPre s co).coroutines co.cid
        = some { co with origin := s.current }
    ∧ run s co transfer
        = (co.cid,
           check_end (transfer (runPre s co)).2 co.cid
             (transfer (runPre s co)).1) := by
  refine ⟨rfl, ?_, rfl⟩
  exact rfind_rinsert_self s.coroutines co.cid { co with origin := s.current }

/-- C6: at every observation point of every operation sequence, the peak
count dominates the live count, and the peak count never decreases as
further operations run. -/
theorem peak_num_monotone_ge_live_count (ops more : List Op) :
    count (runOps initState ops) ≤ get_peak_num (runOps initState ops)
    ∧ get_peak_num (runOps initState ops)
        ≤ get_peak_num (runOps initState (ops ++ more)) := by
  constructor
  · exact runOps_count_le_peak ops initState inv_initState (le_refl 0)
  · rw [runOps_append]
    exact runOps_peak_le more (runOps initState ops)

/-- C7: lookup-by-id misses exactly for ids with no registry entry; an id
never assigned (nonpositive, or above the id counter) is never found; a
registered (live) coroutine is always found under its id; and once an
assigned id is absent — its coroutine ended and was deregistered — no later
operation ever makes it reachable again. -/
theorem get_by_cid_found_iff_live (ops more : List Op) (cid : Int) :
    (get_by_cid (runOps initState ops) cid = none ↔
      ∀ co, (cid, co) ∉ (runOps initState ops).coroutines)
    ∧ ((cid ≤ 0 ∨ (runOps initState ops).last_cid < cid) →
      get_by_cid (runOps initState ops) cid = none)
    ∧ (cid ≤ (runOps initState ops).last_cid →
      get_by_cid (runOps initState ops) cid = none →
      get_by_cid (runOps initState (ops ++ more)) cid = none) := by
  have hinv := inv_runOps ops initState inv_initState
  refine ⟨rfind_eq_none_iff _ _, ?_, ?_⟩
  · intro hrange
    show rfind (runOps initState ops).coroutines cid = none
    rw [rfind_eq_none_iff]
    intro co hmem
    obtain ⟨h1, h2, -⟩ := hinv.2 _ hmem
    dsimp only at h1 h2
    rcases hrange with h | h <;> omega
  · intro hle hnone
    rw [runOps_append]
    exact not_found_stays cid more (runOps initState ops) hinv hle hnone

/-- C7 witness: id 1 is created then closed; after a further creation the
closed id is still unreachable. -/
theorem get_by_cid_found_iff_live_spot_check :
    get_by_cid (runOps initState ([Op.ctor none 0, Op.closeStep 1]
      ++ [Op.ctor none 5])) 1 = none :=
  (get_by_cid_found_iff_live [Op.ctor none 0, Op.closeStep 1]
    [Op.ctor none 5] 1).2.2 (by decide) (by decide)

/-- C8: get_current returns the current coroutine of the domain (none in
host context); get_current_safe returns the same coroutine when one is
current, and fails fatally with the Invalid-class usage error when no
coroutine is current. -/
theorem get_current_safe_fatal_in_host_context (s : GlobalState) :
    (∀ c, s.current = some c →
      get_current_safe s = Except.ok c ∧ get_current s = some c)
    ∧ (s.current = none →
      get_current_safe s = Except.error Error.ERR_INVALID) := by
  constructor
  · intro c hc
    constructor
    · simp [get_current_safe, hc]
    · simpa [get_current] using hc
  · intro hc
    simp [get_current_safe, hc]

/-- C8 witness: with a coroutine current the safe accessor returns it; in
host context it fails with the Invalid usage error. -/
theorem get_current_safe_fatal_in_host_context_spot_check :
    get_current_safe sampleState = Except.ok 1
    ∧ get_current_safe initState = Except.error Error.ERR_INVALID :=
  ⟨((get_current_safe_fatal_in_host_context sampleState).1 1 rfl).1,
   (get_current_safe_fatal_in_host_context initState).2 rfl⟩

/-- C9 (amended): create performs no capacity check — whatever the live
count, even at or above MAX_NUM_LIMIT, it registers a new coroutine and
returns its positive id (in particular never the negative ERR_LIMIT value). -/
theorem create_performs_no_capacity_check (s : GlobalState)
    (task : Option Nat) (now : Int) (transfer : Transfer)
    (h : 0 ≤ s.last_cid) :
    (create s task now transfer).1 = s.last_cid + 1
    ∧ 0 < (create s task now transfer).1
    ∧ (create s task now transfer).1 ≠ Error.ERR_LIMIT.toInt
    ∧ rfind (mkCoroutine s task now).2.coroutines (s.last_cid + 1)
        = some (mkCoroutine s task now).1 := by
  refine ⟨rfl, ?_, ?_, rfind_rinsert_self s.coroutines (s.last_cid + 1)
    (mkCoroutine s task now).1⟩
  · show 0 < s.last_cid + 1
    omega
  · show s.last_cid + 1 ≠ Error.ERR_LIMIT.toInt
    rw [show Error.ERR_LIMIT.toInt = -1 from rfl]
    omega

/-- C9 witness: applied to a state whose live count already equals
MAX_NUM_LIMIT, create still returns the positive fresh id. -/
theorem create_performs_no_capacity_check_spot_check :
    (create bigState none 0 idleTransfer).1 = 2
    ∧ 0 < (create bigState none 0 idleTransfer).1 := by
  have h := create_performs_no_capacity_check bigState none 0 idleTransfer
    (by decide)
  exact ⟨h.1, h.2.1⟩

/-- C9 counterexample: at a state holding MAX_NUM_LIMIT live coroutines,
create does not return a negative error and does change the registry — it
registers a fresh coroutine under the new id, refuting the claimed capacity
rejection. -/
theorem create_at_capacity_counterexample :
    MAX_NUM_LIMIT ≤ (count bigState : Int)
    ∧ (create bigState none 0 idleTransfer).1 = 2
    ∧ ¬(create bigState none 0 idleTransfer).1 < 0
    ∧ (rfind (create bigState none 0 idleTransfer).2.2.coroutines 2).isSome
        = true := by
  have hid : (create bigState none 0 idleTransfer).1 = 2 := rfl
  have hcor : bigState.coroutines = bigReg := rfl
  have hlen : count bigState = 2 ^ 63 - 1 := by
    unfold count
    rw [hcor]
    unfold bigReg
    rw [mkReg_length]
  refine ⟨?_, hid, ?_, ?_⟩
  · rw [hlen]
    decide
  · rw [hid]
    decide
  · have hco : (create bigState none 0 idleTransfer).2.2.coroutines
        = rinsert (mkCoroutine bigState none 0).2.coroutines 2
            { (mkCoroutine bigState none 0).1 with
              origin := (mkCoroutine bigState none 0).2.current } := rfl
    rw [hco, rfind_rinsert_self]
    rfl

/-- C10: the id- and task-returning accessors use fixed sentinels at the
host-context and unknown-id edges: get_origin_cid and get_current_cid return
-1 with no origin or no current coroutine; get_current_task and
get_task_by_cid return the null task pointer there; get_elapsed returns -1
for an id not in the registry, and get_elapsed(0) reports the elapsed time of
the current coroutine rather than of id 0. -/
theorem accessor_sentinels (s : GlobalState) (co : Coroutine) (cid : Int)
    (now : Int) :
    (co.origin = none → co.get_origin_cid = -1)
    ∧ (s.current = none → get_current_cid s = -1)
    ∧ (s.current = none → get_current_task s = none)
    ∧ (get_by_cid s cid = none → get_task_by_cid s cid = none)
    ∧ (cid ≠ 0 → get_by_cid s cid = none → get_elapsed s now cid = -1)
    ∧ (∀ c cur, s.current = some c → rfind s.coroutines c = some cur →
        get_elapsed s now 0 = now - cur.init_msec) := by
  refine ⟨?_, ?_, ?_, ?_, ?_, ?_⟩
  · intro h
    simp [Coroutine.get_origin_cid, h]
  · intro h
    simp [get_current_cid, h]
  · intro h
    simp [get_current_task, h]
  · intro h
    simp [get_task_by_cid, h]
  · intro hne h
    have hb : (cid == 0) = false := by simpa using hne
    simp [get_elapsed, hb, h]
  · intro c cur hc hcur
    simp [get_elapsed, hc, hcur, Coroutine.get_init_msec]

/-- C10 witness: each sentinel at a concrete edge case, and get_elapsed(0)
reading the current coroutine created at time 10 when queried at time 100. -/
theorem accessor_sentinels_spot_check :
    Coroutine.get_origin_cid dummyCo = -1
    ∧ get_current_cid initState = -1
    ∧ get_current_task initState = none
    ∧ get_task_by_cid initState 5 = none
    ∧ get_elapsed initState 100 5 = -1
    ∧ get_elapsed sampleState 100 0 = 90 := by
  have h := accessor_sentinels sampleState dummyCo 5 100
  have h2 := accessor_sentinels initState dummyCo 5 100
  refine ⟨h.1 rfl, h2.2.1 rfl, h2.2.2.1 rfl, h2.2.2.2.1 (by decide),
    h2.2.2.2.2.1 (by decide) (by decide), ?_⟩
  have h3 := h.2.2.2.2.2 1 sampleCo rfl (by decide)
  rw [h3]
  decide

end Swoole
